import Mathlib

/-!
Verification development for the BANNER-BOT repository (`bot.js`, final
variant of the `ASTDXBannerBot` class).  The JavaScript source is embedded
shallowly: OCR text handling, the dedup hash cache, the probe/session loop
of `captureAndSendBanners`, the minute scheduler, the capture spacing guard
of `captureSingleBanner`, and the health-check/recovery pair.
-/

namespace BannerBot

/-- Image byte buffers are modelled as lists of bytes. -/
abbrev ImageBuf := List Nat

/-- Content hashes (md5 hex digests in the source) are modelled as strings. -/
abbrev Hash := String

/-! ## Character classes of the JavaScript regex engine (ASCII fragment) -/

/-- JS regex word character class `\w` = `[A-Za-z0-9_]`. -/
def isWordChar (c : Char) : Bool := c.isAlphanum || c == '_'

/-- JS regex whitespace class `\s` (ASCII part). -/
def isSpaceChar (c : Char) : Bool :=
  c == ' ' || c == '\t' || c == '\n' || c == '\x0b' || c == '\x0c' || c == '\r'

/-- The literal token `BANNER` of the pattern. -/
def bannerChars : List Char := ['B', 'A', 'N', 'N', 'E', 'R']

/-- The exact label the X probe loop compares against (bot.js:1720). -/
def xLit : List Char := ['X', ' ', 'B', 'A', 'N', 'N', 'E', 'R']

/-- The exact label the Y probe loop compares against (bot.js:1762). -/
def yLit : List Char := ['Y', ' ', 'B', 'A', 'N', 'N', 'E', 'R']

/-- A word boundary `\b` holds before a word character when the preceding
character (if any) is not a word character. -/
def boundaryOk (prev : Option Char) : Bool :=
  match prev with
  | none => true
  | some c => !isWordChar c

/-- Does the list start with the literal `BANNER` followed by a word
boundary (end of input or a non-word character)? -/
def bannerThenBoundary (l : List Char) : Bool :=
  match l with
  | 'B' :: 'A' :: 'N' :: 'N' :: 'E' :: 'R' :: rest =>
    match rest with
    | [] => true
    | d :: _ => !isWordChar d
  | _ => false

/-- One anchored attempt of the regex `\b([XY])\s*BANNER\b` at the head of
`l`, with `prev` the character just before `l` (for the left boundary).
Returns the matched text (`match[0]` in the source), which spans the
letter, the consumed whitespace and `BANNER`.  Since `BANNER` starts with a
non-space character, the greedy `\s*` deterministically consumes the
maximal whitespace run. -/
def matchAt (prev : Option Char) (l : List Char) : Option (List Char) :=
  match l with
  | [] => none
  | c :: rest =>
    if (c == 'X' || c == 'Y') && boundaryOk prev
        && bannerThenBoundary (rest.dropWhile isSpaceChar) then
      some (c :: (rest.takeWhile isSpaceChar ++ bannerChars))
    else none

/-- Left-to-right scan for the first match of `\b([XY])\s*BANNER\b`,
carrying the previous character for boundary checks. -/
def scanAux (prev : Option Char) : List Char → Option (List Char)
  | [] => none
  | c :: cs =>
    match matchAt prev (c :: cs) with
    | some m => some m
    | none => scanAux (some c) cs

/-- `extractBannerLabel` (bot.js:1667-1670): first match of
`\b([XY])\s*BANNER\b` over the uppercased OCR text, or `none`. -/
def extractBannerLabel (s : String) : Option String :=
  (scanAux none s.data).map (fun l => String.mk l)

/-- The character immediately before the suffix reached after consuming
`u`, when the scan started with previous character `prev`: the last
character of `u`, or `prev` when `u` is empty. -/
def prevAt (prev : Option Char) : List Char → Option Char
  | [] => prev
  | c :: u => prevAt (some c) u

/-- A word boundary holds after `BANNER` when the following text `v` is
empty or starts with a non-word character. -/
def headBoundary : List Char → Bool
  | [] => true
  | d :: _ => !isWordChar d

/-! ## Dedup cache (bot.js:2918-2954) -/

/-- One call of the hash-cache logic inside `isDuplicateImage`
(bot.js:2932-2954), given the already-computed hash (`none` when
`calculateImageHash` failed): membership test, then push and evict the
oldest entry (`shift`) when the capacity is exceeded. -/
def dedupStep (cacheSize : Nat) (recent : List Hash) (h? : Option Hash) :
    Bool × List Hash :=
  match h? with
  | none => (false, recent)
  | some h =>
    if h ∈ recent then (true, recent)
    else
      let r := recent ++ [h]
      if cacheSize < r.length then (false, r.tail) else (false, r)

/-- `calculateImageHash` (bot.js:2918-2928): a content digest of the raw
bytes, abstracted as a function parameter; returns `none` on failure. -/
def calculateImageHash (hashFn : ImageBuf → Option Hash) (buf : ImageBuf) :
    Option Hash :=
  hashFn buf

/-- `isDuplicateImage` (bot.js:2932-2954) acting on an explicit cache
state: returns the boolean answer and the updated `recentHashes`. -/
def isDuplicateImage (cacheSize : Nat) (hashFn : ImageBuf → Option Hash)
    (buf : ImageBuf) (recent : List Hash) : Bool × List Hash :=
  dedupStep cacheSize recent (calculateImageHash hashFn buf)

/-- Repeated insertion of a list of (pre-computed) hashes through the
dedup cache, oldest first. -/
def dedupInsertAll (cacheSize : Nat) (recent : List Hash) (hs : List Hash) :
    List Hash :=
  hs.foldl (fun s h => (dedupStep cacheSize s (some h)).2) recent

/-! ## The probe loops and capture session (bot.js:1696-1786) -/

/-- What one probe iteration observes: `roi` is the low-fidelity capture
for OCR (`none` when `captureRegionForOcr` returned null, otherwise the
uppercased recognized text), and `full` the result of the full-fidelity
`captureBannerScreenshot` if the iteration attempts it. -/
structure ProbeFrame where
  roi : Option (List Char)
  full : Option ImageBuf

/-- Result of one `while (true)` probe loop run with bounded fuel.
`broke` records whether an image was dispatched, the updated last-sent
label and hash cache, and the number of completed non-breaking iterations
(each of which slept `attemptDelayMs` once).  `fuelOut` means the fuel ran
out before the loop broke; the loop state is unchanged because the code
mutates it only on the breaking iteration. -/
inductive ProbeResult where
  | broke (sent : Option ImageBuf) (lastSent : Option (List Char))
      (recent : List Hash) (sleeps : Nat)
  | fuelOut (lastSent : Option (List Char)) (recent : List Hash)
  deriving DecidableEq, Repr

/-- One banner-probing `while (true)` loop of `captureAndSendBanners`
(bot.js:1706-1744 for X with `expected = xLit`, 1748-1785 for Y with
`expected = yLit`): capture the OCR region (retry with delay on failure),
run `extractBannerLabel`, and when the label equals the expected literal,
take the full screenshot (retry on failure), apply the last-sent-name and
hash-cache dedup checks, dispatch when new, and break.  `fuel` bounds the
number of iterations of this model; the source loop has no such bound. -/
def probeLoopGen (cacheSize : Nat) (hashFn : ImageBuf → Option Hash)
    (expected : List Char) (frames : Nat → ProbeFrame)
    (lastSent : Option (List Char)) (recent : List Hash)
    (i : Nat) : Nat → ProbeResult
  | 0 => ProbeResult.fuelOut lastSent recent
  | fuel + 1 =>
    match (frames i).roi with
    | none =>
      probeLoopGen cacheSize hashFn expected frames lastSent recent (i + 1) fuel
    | some text =>
      if scanAux none text = some expected then
        match (frames i).full with
        | none =>
          probeLoopGen cacheSize hashFn expected frames lastSent recent (i + 1) fuel
        | some img =>
          if lastSent = some expected then
            ProbeResult.broke none lastSent recent i
          else
            match isDuplicateImage cacheSize hashFn img recent with
            | (true, recent2) => ProbeResult.broke none lastSent recent2 i
            | (false, recent2) =>
              ProbeResult.broke (some img) (some expected) recent2 i
      else
        probeLoopGen cacheSize hashFn expected frames lastSent recent (i + 1) fuel

/-- The dedup state held on the bot object: `recentHashes`,
`lastSentBannerNames.X` and `lastSentBannerNames.Y`. -/
structure DedupState where
  recentHashes : List Hash
  lastSentX : Option (List Char)
  lastSentY : Option (List Char)
  deriving DecidableEq, Repr

/-- The probe frames a capture session will observe, one stream per
banner loop (attempt counters restart at the Y loop). -/
structure SessionEnv where
  xFrames : Nat → ProbeFrame
  yFrames : Nat → ProbeFrame

/-- Outcome of one session: both loops broke (`ok`, with dispatched
images, final dedup state and per-loop sleep counts), or the fuel ran out
during the X loop (`stuckX`: the Y loop is never reached) or during the Y
loop (`stuckY`). -/
inductive SessionOutcome where
  | ok (sentX sentY : Option ImageBuf) (final : DedupState)
      (xSleeps ySleeps : Nat)
  | stuckX (recent : List Hash)
  | stuckY (sentX : Option ImageBuf) (xSleeps : Nat) (recent : List Hash)
  deriving DecidableEq, Repr

/-- `captureAndSendBanners` (bot.js:1696-1786): reset `recentHashes` and
`lastSentBannerNames` (lines 1697-1699, discarding the incoming state
`st`), then run the X probe loop and afterwards the Y probe loop, the
latter starting from the hash cache the X loop produced. -/
def captureAndSendBanners (cacheSize : Nat) (hashFn : ImageBuf → Option Hash)
    (env : SessionEnv) (st : DedupState) (fuel : Nat) : SessionOutcome :=
  match probeLoopGen cacheSize hashFn xLit env.xFrames none [] 0 fuel with
  | ProbeResult.fuelOut _ rec1 => SessionOutcome.stuckX rec1
  | ProbeResult.broke sentX lastX1 rec1 xSleeps =>
    match probeLoopGen cacheSize hashFn yLit env.yFrames none rec1 0 fuel with
    | ProbeResult.fuelOut _ rec2 => SessionOutcome.stuckY sentX xSleeps rec2
    | ProbeResult.broke sentY lastY2 rec2 ySleeps =>
      SessionOutcome.ok sentX sentY ⟨rec2, lastX1, lastY2⟩ xSleeps ySleeps

/-! ## Scheduler (bot.js:2341-2359) -/

/-- The minute test of the `setInterval` callback: fire when the current
wall-clock minute equals either configured banner minute. -/
def schedTriggers (m1 m2 minute : Nat) : Bool := minute == m1 || minute == m2

/-- One scheduler tick at minute-count `t` over the list of end times of
in-flight sessions: sessions whose end time has passed complete, and a new
session (ending at `t + dur t`) starts exactly when the minute matches.
The callback has no session-in-progress guard, so an in-flight session
does not block a new trigger. -/
def schedTick (m1 m2 : Nat) (dur : Nat → Nat) (t : Nat)
    (running : List Nat) : List Nat :=
  let active := running.filter (fun e => decide (t < e))
  if schedTriggers m1 m2 (t % 60) then (t + dur t) :: active else active

/-- Simulated clock: the in-flight session list after the ticks at
minutes `0, 1, ..., t`. -/
def schedRun (m1 m2 : Nat) (dur : Nat → Nat) : Nat → List Nat
  | 0 => schedTick m1 m2 dur 0 []
  | t + 1 => schedTick m1 m2 dur (t + 1) (schedRun m1 m2 dur t)

/-! ## Capture spacing guard (bot.js:2956-3013) -/

/-- The spacing guard of `captureSingleBanner` (bot.js:2960-2965): skip
when less than `minMs` elapsed since `lastCaptureTime`; otherwise perform
the capture when the rest of the body succeeds (`ok`), updating
`lastCaptureTime` (bot.js:3000) exactly on success.  Returns whether a
capture was performed and the new `lastCaptureTime`. -/
def captureSingleBanner (minMs : Nat) (last : Nat) (now : Nat) (ok : Bool) :
    Bool × Nat :=
  if now - last < minMs then (false, last)
  else if ok then (true, now) else (false, last)

/-- Run a list of single-banner capture attempts `(time, ok)` through the
guard, returning the times of the captures actually performed. -/
def runSingles (minMs : Nat) (last : Nat) : List (Nat × Bool) → List Nat
  | [] => []
  | (t, ok) :: rest =>
    match captureSingleBanner minMs last t ok with
    | (true, last2) => t :: runSingles minMs last2 rest
    | (false, last2) => runSingles minMs last2 rest

/-! ## Health check and recovery (bot.js:3068-3176) -/

/-- Issue string pushed when the video element is missing (bot.js:3102). -/
def videoMissingIssue : List Char := "Video element not found".data

/-- Issue string pushed when the browser or page handle is gone
(bot.js:3074). -/
def browserGoneIssue : List Char := "Browser or page not available".data

/-- The observations `performHealthCheck` makes: handle validity, the
current URL (`none` when reading it threw), the video element status
`(exists, working)` (`none` when the evaluation threw), and whether an
error page was detected (`none` when that check threw). -/
structure HealthInputs where
  browserPageOk : Bool
  url : Option (List Char)
  video : Option (Bool × Bool)
  errorPage : Option Bool

/-- Does `hay` start with `needle`? -/
def listStartsWith : List Char → List Char → Bool
  | [], _ => true
  | _ :: _, [] => false
  | a :: as, b :: bs => a == b && listStartsWith as bs

/-- Substring test, modelling JavaScript `String.prototype.includes`. -/
def containsSub (hay needle : List Char) : Bool :=
  match hay with
  | [] => needle.isEmpty
  | _ :: t => listStartsWith needle hay || containsSub t needle

/-- `performHealthCheck` (bot.js:3068-3132): collect every failing check,
in source order, and report healthy exactly when no issue was found. -/
def performHealthCheck (inp : HealthInputs) : Bool × List (List Char) :=
  let l1 := if inp.browserPageOk then [] else [browserGoneIssue]
  let l2 :=
    match inp.url with
    | none => ["Cannot access page URL".data]
    | some u =>
      if containsSub u "youtube.com".data || containsSub u "youtu.be".data
      then [] else ["Not on YouTube page".data]
  let l3 :=
    match inp.video with
    | none => ["Cannot check video status".data]
    | some (ex, working) =>
      if ex then (if working then [] else ["Video not working properly".data])
      else [videoMissingIssue]
  let l4 :=
    match inp.errorPage with
    | none => ["Cannot check for errors".data]
    | some b => if b then ["YouTube error page detected".data] else []
  let issues := l1 ++ l2 ++ l3 ++ l4
  (issues.isEmpty, issues)

/-- Which remedies `performRecovery` runs. -/
structure RecoveryActions where
  refreshPage : Bool
  restartVideo : Bool
  navigateBack : Bool
  restartBrowser : Bool
  deriving DecidableEq, Repr

/-- `performRecovery` (bot.js:3135-3176): each issue category maps to its
targeted remedy by substring tests over the issues list; the full browser
restart fires only for the browser/page-unavailable category. -/
def performRecovery (issues : List (List Char)) : RecoveryActions where
  refreshPage := issues.any (fun s => containsSub s "YouTube error page".data)
  restartVideo := issues.any (fun s =>
    containsSub s "Video element not found".data
      || containsSub s "Video not working".data)
  navigateBack := issues.any (fun s => containsSub s "Not on YouTube page".data)
  restartBrowser := issues.any (fun s =>
    containsSub s "Browser or page not available".data)

/-! ## Concrete instances used to evaluate the model -/

/-- A concrete injective-enough content hash for two sample buffers. -/
def hashFn0 : ImageBuf → Option Hash :=
  fun b => some (if b = [1] then "A" else "B")

/-- An environment where the X loop sees `X BANNER` with image `[1]` at
its first attempt and the Y loop sees `Y BANNER` with image `[2]`. -/
def env0 : SessionEnv :=
  ⟨fun _ => ⟨some xLit, some [1]⟩, fun _ => ⟨some yLit, some [2]⟩⟩

/-- A frame stream whose OCR text never contains a banner label (the
stream is stuck on an ad). -/
def noMatchFrames : Nat → ProbeFrame :=
  fun _ => ⟨some "JUST AN AD".data, none⟩

/-- A frame stream whose OCR text matches the label pattern with two
spaces between the letter and `BANNER`. -/
def twoSpaceFrames : Nat → ProbeFrame :=
  fun _ => ⟨some "X  BANNER".data, some [3]⟩

/-! ## Dedup cache lemmas -/

theorem dedupStep_length_le (cacheSize : Nat) (recent : List Hash)
    (h? : Option Hash) (h : recent.length ≤ cacheSize) :
    ((dedupStep cacheSize recent h?).2).length ≤ cacheSize := by
  cases h? with
  | none => simpa [dedupStep] using h
  | some x =>
    by_cases hx : x ∈ recent
    · simpa [dedupStep, hx] using h
    · simp only [dedupStep, if_neg hx]
      split
      · rename_i hlt
        simp only [List.length_tail, List.length_append, List.length_cons,
          List.length_nil] at *
        omega
      · rename_i hlt
        simp only [not_lt, List.length_append, List.length_cons,
          List.length_nil] at hlt
        simpa using hlt

theorem dedupInsertAll_length_le (cacheSize : Nat) :
    ∀ (hs s : List Hash), s.length ≤ cacheSize →
      (dedupInsertAll cacheSize s hs).length ≤ cacheSize := by
  intro hs
  induction hs with
  | nil => intro s h; simpa [dedupInsertAll] using h
  | cons x t ih =>
    intro s h
    have hstep := dedupStep_length_le cacheSize s (some x) h
    simpa [dedupInsertAll, List.foldl_cons] using ih _ hstep

theorem dedupInsertAll_no_evict (cacheSize : Nat) :
    ∀ (hs s : List Hash), (s ++ hs).Nodup → (s ++ hs).length ≤ cacheSize →
      dedupInsertAll cacheSize s hs = s ++ hs := by
  intro hs
  induction hs with
  | nil => intro s _ _; simp [dedupInsertAll]
  | cons x t ih =>
    intro s hnd hlen
    have hx : x ∉ s := by
      rcases List.nodup_append.mp hnd with ⟨_, _, hdisj⟩
      exact fun hm => hdisj hm (List.mem_cons_self x t)
    have hnoev : ¬ cacheSize < s.length + 1 := by
      simp only [List.length_append, List.length_cons] at hlen
      omega
    have hstep : (dedupStep cacheSize s (some x)).2 = s ++ [x] := by
      simp [dedupStep, hx, hnoev]
    have hrec := ih (s ++ [x])
      (by simpa using hnd) (by simpa using hlen)
    calc dedupInsertAll cacheSize s (x :: t)
        = dedupInsertAll cacheSize (s ++ [x]) t := by
          simp [dedupInsertAll, List.foldl_cons, hstep]
      _ = (s ++ [x]) ++ t := hrec
      _ = s ++ x :: t := by simp

/-- C4: for every call sequence, the hash cache never exceeds the
configured capacity, and inserting `N + 1` distinct hashes into an empty
cache leaves exactly the `N` most recent ones: the oldest hash is the one
evicted (FIFO). -/
theorem c4_fifo_capacity :
    (∀ (cacheSize : Nat) (s : List Hash) (hs : List Hash),
      s.length ≤ cacheSize →
        (dedupInsertAll cacheSize s hs).length ≤ cacheSize) ∧
    (∀ (cacheSize : Nat) (hs : List Hash), hs.Nodup →
      hs.length = cacheSize + 1 →
        dedupInsertAll cacheSize [] hs = hs.tail ∧
        ∀ h0, hs.head? = some h0 → h0 ∉ hs.tail) := by
  constructor
  · intro cacheSize s hs h
    exact dedupInsertAll_length_le cacheSize hs s h
  · intro cacheSize hs hnd hlen
    have hne : hs ≠ [] := by
      intro h; rw [h] at hlen; simp at hlen
    have hfl : hs.dropLast ++ [hs.getLast hne] = hs :=
      List.dropLast_append_getLast hne
    have hnd2 : (hs.dropLast ++ [hs.getLast hne]).Nodup := hfl.symm ▸ hnd
    have hlenfront : hs.dropLast.length = cacheSize := by
      rw [List.length_dropLast, hlen]; rfl
    have hfront : dedupInsertAll cacheSize [] hs.dropLast = hs.dropLast := by
      apply dedupInsertAll_no_evict
      · simpa using (List.nodup_append.mp hnd2).1
      · simp [hlenfront]
    have hxnotin : hs.getLast hne ∉ hs.dropLast := by
      rcases List.nodup_append.mp hnd2 with ⟨_, _, hdisj⟩
      exact fun hm => hdisj hm (List.mem_singleton.mpr rfl)
    constructor
    · calc dedupInsertAll cacheSize [] hs
          = dedupInsertAll cacheSize [] (hs.dropLast ++ [hs.getLast hne]) := by
            rw [hfl]
        _ = (dedupStep cacheSize
              (dedupInsertAll cacheSize [] hs.dropLast) (some (hs.getLast hne))).2 := by
            simp [dedupInsertAll, List.foldl_append]
        _ = hs.tail := by
            rw [hfront]
            have hev : cacheSize < (hs.dropLast ++ [hs.getLast hne]).length := by
              simp [hlenfront]
            simp only [dedupStep, if_neg hxnotin, if_pos hev]
            rw [hfl]
    · intro h0 hh0
      cases hs with
      | nil => simp at hh0
      | cons a t =>
        simp only [List.head?_cons, Option.some.injEq] at hh0
        subst hh0
        simpa using (List.nodup_cons.mp hnd).1

/-- C5: with a computable hash not yet in the cache and positive capacity,
two successive duplicate checks on identical bytes answer `false` then
`true`; the hash is inserted exactly on the `false` answer, and the cache
is left untouched (in particular does not grow) on the `true` answer. -/
theorem c5_dup_twice (cacheSize : Nat) (hashFn : ImageBuf → Option Hash)
    (buf : ImageBuf) (h : Hash) (s : List Hash)
    (hpos : 0 < cacheSize) (hh : hashFn buf = some h) (hnew : h ∉ s) :
    (isDuplicateImage cacheSize hashFn buf s).1 = false ∧
    h ∈ (isDuplicateImage cacheSize hashFn buf s).2 ∧
    isDuplicateImage cacheSize hashFn buf
        (isDuplicateImage cacheSize hashFn buf s).2
      = (true, (isDuplicateImage cacheSize hashFn buf s).2) ∧
    (∀ s' : List Hash, (isDuplicateImage cacheSize hashFn buf s').1 = true →
      (isDuplicateImage cacheSize hashFn buf s').2 = s') := by
  have hfirst : ∃ s1, isDuplicateImage cacheSize hashFn buf s = (false, s1)
      ∧ h ∈ s1 := by
    by_cases hev : cacheSize < s.length + 1
    · cases s with
      | nil => simp at hev; omega
      | cons a t =>
        refine ⟨t ++ [h], ?_, by simp⟩
        simp only [isDuplicateImage, calculateImageHash, dedupStep, hh,
          if_neg hnew]
        rw [if_pos (by simpa using hev)]
        simp
    · refine ⟨s ++ [h], ?_, by simp⟩
      simp only [isDuplicateImage, calculateImageHash, dedupStep, hh,
        if_neg hnew]
      rw [if_neg (by simpa using hev)]
  obtain ⟨s1, hfst, hmem⟩ := hfirst
  refine ⟨by rw [hfst], by rw [hfst]; exact hmem, ?_, ?_⟩
  · rw [hfst]
    simp [isDuplicateImage, calculateImageHash, dedupStep, hh, hmem]
  · intro s' htrue
    by_cases hmem' : h ∈ s'
    · simp [isDuplicateImage, calculateImageHash, dedupStep, hh, hmem']
    · exfalso
      simp only [isDuplicateImage, calculateImageHash, dedupStep, hh,
        if_neg hmem'] at htrue
      split at htrue <;> simp at htrue

/-- C5 witness: concrete two-call run from an empty cache. -/
theorem c5_dup_twice_w :
    (isDuplicateImage 2 (fun _ => some "H") [7] []).1 = false ∧
    "H" ∈ (isDuplicateImage 2 (fun _ => some "H") [7] []).2 ∧
    isDuplicateImage 2 (fun _ => some "H") [7]
        (isDuplicateImage 2 (fun _ => some "H") [7] []).2
      = (true, (isDuplicateImage 2 (fun _ => some "H") [7] []).2) ∧
    (isDuplicateImage 2 (fun _ => some "H") [7] ["H"]).2 = ["H"] :=
  have h := c5_dup_twice 2 (fun _ => some "H") [7] "H" [] (by decide) rfl
    (by decide)
  ⟨h.1, h.2.1, h.2.2.1, h.2.2.2 ["H"] (by decide)⟩

/-- C4 witness: capacity bound and FIFO eviction at capacity 2 with three
distinct hashes. -/
theorem c4_fifo_capacity_w :
    (dedupInsertAll 2 [] ["A", "B", "C"]).length ≤ 2 ∧
    dedupInsertAll 2 [] ["A", "B", "C"] = ["B", "C"] ∧
    "A" ∉ (["A", "B", "C"] : List Hash).tail := by
  refine ⟨c4_fifo_capacity.1 2 [] ["A", "B", "C"] (by decide), ?_, ?_⟩
  · have := (c4_fifo_capacity.2 2 ["A", "B", "C"] (by decide) (by decide)).1
    simpa using this
  · exact (c4_fifo_capacity.2 2 ["A", "B", "C"] (by decide) (by decide)).2 "A" rfl

/-- C10: when the hash computation fails (`calculateImageHash` returns
`none`), the duplicate check answers `false` and leaves the recent-hash
cache unchanged, so an unhashable image is never suppressed and never
pollutes the cache. -/
theorem c10_hash_failure_safe (cacheSize : Nat)
    (hashFn : ImageBuf → Option Hash) (buf : ImageBuf) (recent : List Hash)
    (hfail : hashFn buf = none) :
    isDuplicateImage cacheSize hashFn buf recent = (false, recent) := by
  simp [isDuplicateImage, calculateImageHash, dedupStep, hfail]

/-- C10 witness: a concrete always-failing hash function. -/
theorem c10_hash_failure_safe_w :
    isDuplicateImage 5 (fun _ => none) [1, 2] ["A"] = (false, ["A"]) :=
  c10_hash_failure_safe 5 (fun _ => none) [1, 2] ["A"] rfl

/-- C6: `captureAndSendBanners` clears both dedup structures at its start
(bot.js:1697-1699), so the session outcome is independent of the incoming
dedup state: running from any state equals running from the cleared state
`⟨[], none, none⟩`, and concretely a banner whose hash and label are
already recorded in the incoming state is dispatched again rather than
suppressed. -/
theorem c6_session_reset :
    (∀ (cacheSize : Nat) (hashFn : ImageBuf → Option Hash) (env : SessionEnv)
      (st st' : DedupState) (fuel : Nat),
        captureAndSendBanners cacheSize hashFn env st fuel
          = captureAndSendBanners cacheSize hashFn env st' fuel) ∧
    (∀ (cacheSize : Nat) (hashFn : ImageBuf → Option Hash) (env : SessionEnv)
      (st : DedupState) (fuel : Nat),
        captureAndSendBanners cacheSize hashFn env st fuel
          = captureAndSendBanners cacheSize hashFn env ⟨[], none, none⟩ fuel) ∧
    (∀ st : DedupState,
        captureAndSendBanners 5 hashFn0 env0 st 1
          = SessionOutcome.ok (some [1]) (some [2])
              ⟨["A", "B"], some xLit, some yLit⟩ 0 0) :=
  ⟨fun _ _ _ _ _ _ => rfl, fun _ _ _ _ _ => rfl, fun _ => by rfl⟩

/-- C8: a health-check issues list containing only `Video element not
found` makes `performRecovery` run the video-start remedy and not the full
browser restart; the full restart runs exactly when some issue reports the
browser or page handle as unavailable.  The first conjunct checks that
`performHealthCheck` produces exactly that issues list when only the video
element is missing. -/
theorem c8_recovery_mapping :
    performHealthCheck ⟨true, some "https://www.youtube.com/watch".data,
        some (false, false), some false⟩ = (false, [videoMissingIssue]) ∧
    performRecovery [videoMissingIssue]
      = ⟨false, true, false, false⟩ ∧
    (∀ issues : List (List Char),
      ((performRecovery issues).restartBrowser = true ↔
        ∃ s ∈ issues,
          containsSub s "Browser or page not available".data = true)) := by
  refine ⟨by decide, by decide, ?_⟩
  intro issues
  simp [performRecovery, List.any_eq_true]

/-- C2 counterexample: with scheduled minutes 1 and 31 and a session
started at minute 1 that runs for 40 minutes, the tick at minute 31
starts a second session while the first is still in flight: after the
minute-31 tick two sessions (ending at minutes 71 and 41) are running
concurrently, refuting the claim that two capture sessions are never in
flight concurrently. -/
theorem c2_overlap_cex :
    schedRun 1 31 (fun _ => 40) 31 = [71, 41] ∧
    (schedRun 1 31 (fun _ => 40) 31).length = 2 := by
  exact ⟨by decide, by decide⟩

/-- C2 amended: a capture session is triggered exactly when the current
minute equals one of the two configured minutes; there is no
session-in-progress guard, so overlap is prevented only when each session
ends before the next scheduled tick.  In particular, with minutes 1 and 31
and a 5-minute session started at minute 1, at most one session is ever in
flight over the simulated hour, and at minute 2 the minute-1 session (end
time 6) is still running with no second session started. -/
theorem c2_schedule_amended :
    (∀ (m1 m2 : Nat) (dur : Nat → Nat) (t : Nat) (running : List Nat),
      (schedTick m1 m2 dur t running).length
        = (running.filter (fun e => decide (t < e))).length
          + (if t % 60 = m1 ∨ t % 60 = m2 then 1 else 0)) ∧
    (∀ t : Nat, t < 60 → (schedRun 1 31 (fun _ => 5) t).length ≤ 1) ∧
    schedRun 1 31 (fun _ => 5) 2 = [6] := by
  refine ⟨?_, by decide, by decide⟩
  intro m1 m2 dur t running
  by_cases h : t % 60 = m1 ∨ t % 60 = m2
  · have ht : schedTriggers m1 m2 (t % 60) = true := by
      simp [schedTriggers]
      rcases h with h | h
      · exact Or.inl h
      · exact Or.inr h
    simp [schedTick, ht, h]
  · have ht : schedTriggers m1 m2 (t % 60) = false := by
      push_neg at h
      simp [schedTriggers, h.1, h.2]
    simp [schedTick, ht, h]

/-- C2 amended witness: the no-overlap bound applied at minute 2. -/
theorem c2_schedule_amended_w :
    (schedRun 1 31 (fun _ => 5) 2).length ≤ 1 :=
  c2_schedule_amended.2.1 2 (by decide)

/-- C7 counterexample: the scheduled capture path performs no spacing
check.  In a session whose X and Y probes both match at the first attempt,
both banners are dispatched with zero intervening sleep iterations, so the
time between the two captures contributed by the loop delays is
`0 * 250 ms`, far below the configured 30000 ms minimum spacing. -/
theorem c7_spacing_cex :
    captureAndSendBanners 5 hashFn0 env0 ⟨[], none, none⟩ 1
      = SessionOutcome.ok (some [1]) (some [2])
          ⟨["A", "B"], some xLit, some yLit⟩ 0 0 ∧
    0 * 250 < 30000 := by
  exact ⟨by decide, by decide⟩

theorem runSingles_bound_chain (minMs : Nat) (hpos : 0 < minMs) :
    ∀ (attempts : List (Nat × Bool)) (last : Nat),
      (∀ x ∈ runSingles minMs last attempts, last + minMs ≤ x) ∧
      List.Chain' (fun a b => a + minMs ≤ b)
        (runSingles minMs last attempts) := by
  intro attempts
  induction attempts with
  | nil => intro last; exact ⟨by simp [runSingles], by simp [runSingles]⟩
  | cons p rest ih =>
    intro last
    obtain ⟨t, ok⟩ := p
    by_cases hskip : t - last < minMs
    · have hc : captureSingleBanner minMs last t ok = (false, last) := by
        simp [captureSingleBanner, hskip]
      constructor
      · intro x hx
        rw [runSingles, hc] at hx
        exact (ih last).1 x hx
      · rw [runSingles, hc]
        exact (ih last).2
    · cases ok with
      | false =>
        have hc : captureSingleBanner minMs last t false = (false, last) := by
          simp [captureSingleBanner, hskip]
        constructor
        · intro x hx
          rw [runSingles, hc] at hx
          exact (ih last).1 x hx
        · rw [runSingles, hc]
          exact (ih last).2
      | true =>
        have hc : captureSingleBanner minMs last t true = (true, t) := by
          simp [captureSingleBanner, hskip]
        have hlt : last + minMs ≤ t := by omega
        constructor
        · intro x hx
          rw [runSingles, hc] at hx
          rcases List.mem_cons.mp hx with hx | hx
          · omega
          · have := (ih t).1 x hx
            omega
        · rw [runSingles, hc]
          refine List.chain'_cons'.mpr ⟨?_, (ih t).2⟩
          intro b hb
          exact (ih t).1 b (List.mem_of_mem_head? hb)

/-- C7 amended: only the manual single-banner path enforces the minimum
spacing.  `captureSingleBanner` skips any attempt made sooner than `minMs`
after the last successful capture, and consequently the capture times it
performs are pairwise at least `minMs` apart; the scheduled
`captureAndSendBanners` path has no such check (see the counterexample). -/
theorem c7_spacing_amended :
    (∀ (minMs last t : Nat) (ok : Bool), t - last < minMs →
      captureSingleBanner minMs last t ok = (false, last)) ∧
    (∀ minMs : Nat, 0 < minMs → ∀ (attempts : List (Nat × Bool)) (last : Nat),
      List.Chain' (fun a b => a + minMs ≤ b)
        (runSingles minMs last attempts)) := by
  constructor
  · intro minMs last t ok hlt
    simp [captureSingleBanner, hlt]
  · intro minMs hpos attempts last
    exact (runSingles_bound_chain minMs hpos attempts last).2

/-- C7 amended witness: a too-soon attempt is skipped, and a concrete
attempt list yields 30000-spaced capture times. -/
theorem c7_spacing_amended_w :
    captureSingleBanner 30000 50000 60000 true = (false, 50000) ∧
    List.Chain' (fun a b => a + 30000 ≤ b)
      (runSingles 30000 0 [(50000, true), (60000, true), (90000, true)]) :=
  ⟨c7_spacing_amended.1 30000 50000 60000 true (by decide),
   c7_spacing_amended.2 30000 (by decide) [(50000, true), (60000, true), (90000, true)] 0⟩

theorem probeLoop_no_match (cacheSize : Nat) (hashFn : ImageBuf → Option Hash)
    (expected : List Char) (frames : Nat → ProbeFrame)
    (h : ∀ j t, (frames j).roi = some t → scanAux none t ≠ some expected)
    (lastSent : Option (List Char)) (recent : List Hash) :
    ∀ fuel i, probeLoopGen cacheSize hashFn expected frames lastSent recent i fuel
      = ProbeResult.fuelOut lastSent recent := by
  intro fuel
  induction fuel with
  | zero => intro i; rfl
  | succ n ih =>
    intro i
    cases hr : (frames i).roi with
    | none =>
      rw [probeLoopGen, hr]
      exact ih (i + 1)
    | some t =>
      rw [probeLoopGen, hr]
      simp only [if_neg (h i t hr)]
      exact ih (i + 1)

/-- C1: the probing loops of `captureAndSendBanners` have no iteration
cap.  If the expected label never appears in any OCR result, the loop
performs every iteration the fuel allows and never breaks — for every
bound the loop is still running — and the session never reaches the other
banner (the outcome is stuck in the X loop), instead of failing that
banner after a fixed maximum of attempts and moving on. -/
theorem c1_probe_loops_unbounded :
    (∀ (cacheSize : Nat) (hashFn : ImageBuf → Option Hash)
      (expected : List Char) (frames : Nat → ProbeFrame),
      (∀ j t, (frames j).roi = some t → scanAux none t ≠ some expected) →
      ∀ (lastSent : Option (List Char)) (recent : List Hash) (fuel i : Nat),
        probeLoopGen cacheSize hashFn expected frames lastSent recent i fuel
          = ProbeResult.fuelOut lastSent recent) ∧
    (∀ (cacheSize : Nat) (hashFn : ImageBuf → Option Hash) (env : SessionEnv)
      (st : DedupState) (fuel : Nat),
      (∀ j t, (env.xFrames j).roi = some t → scanAux none t ≠ some xLit) →
        captureAndSendBanners cacheSize hashFn env st fuel
          = SessionOutcome.stuckX []) := by
  constructor
  · intro cacheSize hashFn expected frames h lastSent recent fuel i
    exact probeLoop_no_match cacheSize hashFn expected frames h lastSent recent fuel i
  · intro cacheSize hashFn env st fuel h
    unfold captureAndSendBanners
    rw [probeLoop_no_match cacheSize hashFn xLit env.xFrames h none [] fuel 0]

/-- C1 witness: a stream stuck on an ad (no frame ever reads a banner
label) exhausts any amount of fuel in the X loop and the session never
reaches the Y banner. -/
theorem c1_probe_loops_unbounded_w :
    probeLoopGen 5 hashFn0 xLit noMatchFrames none [] 0 7
      = ProbeResult.fuelOut none [] ∧
    captureAndSendBanners 5 hashFn0 ⟨noMatchFrames, noMatchFrames⟩
        ⟨[], none, none⟩ 7
      = SessionOutcome.stuckX [] := by
  have hno : ∀ j t, (noMatchFrames j).roi = some t →
      scanAux none t ≠ some xLit := by
    intro j t ht
    simp only [noMatchFrames, Option.some.injEq] at ht
    rw [← ht]
    decide
  exact ⟨c1_probe_loops_unbounded.1 5 hashFn0 xLit noMatchFrames hno none [] 7 0,
    c1_probe_loops_unbounded.2 5 hashFn0 ⟨noMatchFrames, noMatchFrames⟩
      ⟨[], none, none⟩ 7 hno⟩

/-! ## Regex scan lemmas -/

theorem prevAt_cons (prev : Option Char) (c : Char) (u : List Char) :
    prevAt prev (c :: u) = prevAt (some c) u := rfl

theorem scanAux_none_iff :
    ∀ (l : List Char) (prev : Option Char),
      scanAux prev l = none ↔
        ∀ u v, l = u ++ v → matchAt (prevAt prev u) v = none := by
  intro l
  induction l with
  | nil =>
    intro prev
    constructor
    · intro _ u v huv
      rcases List.append_eq_nil.mp huv.symm with ⟨hu, hv⟩
      subst hu; subst hv
      rfl
    · intro _
      rfl
  | cons c cs ih =>
    intro prev
    constructor
    · intro h u v huv
      have hm : matchAt prev (c :: cs) = none ∧ scanAux (some c) cs = none := by
        cases hmc : matchAt prev (c :: cs) with
        | some m => rw [scanAux, hmc] at h; exact absurd h (by simp)
        | none => rw [scanAux, hmc] at h; exact ⟨rfl, h⟩
      cases u with
      | nil =>
        simp only [List.nil_append] at huv
        subst huv
        exact hm.1
      | cons a u2 =>
        rw [List.cons_append] at huv
        injection huv with h1 h2
        subst h1
        rw [prevAt_cons]
        exact (ih (some c)).mp hm.2 u2 v h2
    · intro h
      have h0 : matchAt prev (c :: cs) = none := h [] (c :: cs) rfl
      rw [scanAux, h0]
      apply (ih (some c)).mpr
      intro u v huv
      have := h (c :: u) v (by rw [huv, List.cons_append])
      rwa [prevAt_cons] at this

theorem matchAt_lit (prev : Option Char) (c : Char) (v : List Char)
    (hc : c = 'X' ∨ c = 'Y') (hb : boundaryOk prev = true)
    (hv : headBoundary v = true) :
    matchAt prev (c :: ' ' :: (bannerChars ++ v))
      = some (c :: ' ' :: bannerChars) := by
  have h1 : (c == 'X' || c == 'Y') = true := by
    rcases hc with h | h <;> simp [h]
  have hdrop : (' ' :: (bannerChars ++ v)).dropWhile isSpaceChar
      = 'B' :: 'A' :: 'N' :: 'N' :: 'E' :: 'R' :: v := by
    show List.dropWhile isSpaceChar
      (' ' :: 'B' :: 'A' :: 'N' :: 'N' :: 'E' :: 'R' :: v) = _
    simp +decide [List.dropWhile_cons]
  have htake : (' ' :: (bannerChars ++ v)).takeWhile isSpaceChar = [' '] := by
    show List.takeWhile isSpaceChar
      (' ' :: 'B' :: 'A' :: 'N' :: 'N' :: 'E' :: 'R' :: v) = _
    simp +decide [List.takeWhile_cons]
  have hbtb : bannerThenBoundary ('B' :: 'A' :: 'N' :: 'N' :: 'E' :: 'R' :: v)
      = true := by
    cases v with
    | nil => rfl
    | cons d t => exact hv
  rw [matchAt, hdrop, hbtb, h1, hb, htake]
  rfl

/-- C3 counterexample: the separator in the pattern is `\s*` (zero or
more), so the text `XBANNER`, with no token boundary between the letter
and `BANNER`, produces the match `XBANNER` instead of no match. -/
theorem c3_xbanner_cex :
    extractBannerLabel "XBANNER" = some "XBANNER" ∧
    extractBannerLabel "XBANNER" ≠ none := by
  exact ⟨by decide, by decide⟩

/-- C3 amended: `extractBannerLabel` returns `none` exactly when no
position of the text matches `\b[XY]\s*BANNER\b`; any whole-word
occurrence of `X BANNER` (or `Y BANNER`) therefore yields a match,
and texts with neither letter before `BANNER` yield `none`; but because
the separator is `\s*`, the token `XBANNER` also matches (yielding the
string `XBANNER`), and only the downstream comparison with the exact
literal rejects it. -/
theorem c3_extract_amended :
    (∀ s : List Char, scanAux none s = none ↔
      ∀ u v, s = u ++ v → matchAt (prevAt none u) v = none) ∧
    (∀ (u v : List Char) (c : Char), (c = 'X' ∨ c = 'Y') →
      boundaryOk (prevAt none u) = true → headBoundary v = true →
      scanAux none (u ++ (c :: ' ' :: bannerChars) ++ v) ≠ none) ∧
    extractBannerLabel "THE X BANNER IS UP" = some "X BANNER" ∧
    extractBannerLabel "NOW Y BANNER SHOWN" = some "Y BANNER" ∧
    extractBannerLabel "NO LABEL IN SIGHT" = none ∧
    extractBannerLabel "X BANNERS" = none ∧
    extractBannerLabel "XBANNER" = some "XBANNER" := by
  refine ⟨fun s => scanAux_none_iff s none, ?_, by decide, by decide,
    by decide, by decide, by decide⟩
  intro u v c hc hbnd hhead hnone
  have hsplit := (scanAux_none_iff _ none).mp hnone u
    ((c :: ' ' :: bannerChars) ++ v) (by rw [List.append_assoc])
  rw [show (c :: ' ' :: bannerChars) ++ v = c :: ' ' :: (bannerChars ++ v)
      from rfl] at hsplit
  rw [matchAt_lit (prevAt none u) c v hc hbnd hhead] at hsplit
  exact absurd hsplit (by simp)

/-- C3 amended witness: a whole-word `X BANNER` occurrence with an
ordinary word on each side is matched. -/
theorem c3_extract_amended_w :
    scanAux none ("SEE ".data ++ ('X' :: ' ' :: bannerChars) ++ " NOW".data)
      ≠ none :=
  c3_extract_amended.2.1 "SEE ".data " NOW".data 'X' (Or.inl rfl)
    (by decide) (by decide)

theorem matchAt_shape (prev : Option Char) (l m : List Char)
    (h : matchAt prev l = some m) :
    ∃ c rest, l = c :: rest ∧ (c = 'X' ∨ c = 'Y')
      ∧ m = c :: (rest.takeWhile isSpaceChar ++ bannerChars) := by
  cases l with
  | nil => simp [matchAt] at h
  | cons c rest =>
    simp only [matchAt] at h
    split at h
    · rename_i hcond
      simp only [Bool.and_eq_true, Bool.or_eq_true, beq_iff_eq] at hcond
      refine ⟨c, rest, rfl, hcond.1.1, ?_⟩
      injection h with h2
      exact h2.symm
    · cases h

theorem append_banner_ne (c d : Char) (sp : List Char) (hsp : sp ≠ [' ']) :
    c :: (sp ++ bannerChars) ≠ d :: (' ' :: bannerChars) := by
  intro h
  injection h with hc htail
  have hlen : sp.length = 1 := by
    have := congrArg List.length htail
    simp only [List.length_append, List.length_cons] at this
    omega
  have hsp1 : sp = [' '] := by
    have h2 : sp ++ bannerChars = [' '] ++ bannerChars := htail
    exact (List.append_inj h2 (by simp [hlen])).1
  exact hsp hsp1

theorem probeLoop_step_skip (cacheSize : Nat) (hashFn : ImageBuf → Option Hash)
    (expected : List Char) (frames : Nat → ProbeFrame)
    (lastSent : Option (List Char)) (recent : List Hash)
    (i fuel : Nat) (text m : List Char)
    (hroi : (frames i).roi = some text)
    (hscan : scanAux none text = some m) (hne : m ≠ expected) :
    probeLoopGen cacheSize hashFn expected frames lastSent recent i (fuel + 1)
      = probeLoopGen cacheSize hashFn expected frames lastSent recent (i + 1) fuel := by
  have hnm : ¬ scanAux none text = some expected := by
    rw [hscan]
    intro hh
    injection hh with hh
    exact hne hh
  rw [probeLoopGen, hroi]
  simp only [if_neg hnm]

/-- C9: every match of the label pattern has the shape letter, consumed
whitespace, `BANNER`; whenever the consumed whitespace is anything other
than a single space the matched string differs from the exact literals
`X BANNER` and `Y BANNER`; and a probe iteration whose extracted label is
not the expected literal never breaks out to the full-fidelity capture
and send — the loop just moves to the next attempt. -/
theorem c9_exact_literal_gate :
    (∀ (prev : Option Char) (l m : List Char), matchAt prev l = some m →
      ∃ c rest, l = c :: rest ∧ (c = 'X' ∨ c = 'Y')
        ∧ m = c :: (rest.takeWhile isSpaceChar ++ bannerChars)) ∧
    (∀ (c : Char) (sp : List Char), sp ≠ [' '] →
      c :: (sp ++ bannerChars) ≠ xLit ∧ c :: (sp ++ bannerChars) ≠ yLit) ∧
    (∀ (cacheSize : Nat) (hashFn : ImageBuf → Option Hash)
      (expected : List Char) (frames : Nat → ProbeFrame)
      (lastSent : Option (List Char)) (recent : List Hash)
      (i fuel : Nat) (text m : List Char),
      (frames i).roi = some text → scanAux none text = some m →
      m ≠ expected →
      probeLoopGen cacheSize hashFn expected frames lastSent recent i (fuel + 1)
        = probeLoopGen cacheSize hashFn expected frames lastSent recent
            (i + 1) fuel) := by
  refine ⟨matchAt_shape, ?_, ?_⟩
  · intro c sp hsp
    exact ⟨append_banner_ne c 'X' sp hsp, append_banner_ne c 'Y' sp hsp⟩
  · intro cacheSize hashFn expected frames lastSent recent i fuel text m h1 h2 h3
    exact probeLoop_step_skip cacheSize hashFn expected frames lastSent recent
      i fuel text m h1 h2 h3

/-- C9 witness: a frame reading `X  BANNER` (two spaces) matches the
pattern but not the exact literal, so the X probe loop does not break on
it. -/
theorem c9_exact_literal_gate_w :
    probeLoopGen 5 hashFn0 xLit twoSpaceFrames none [] 0 1
      = probeLoopGen 5 hashFn0 xLit twoSpaceFrames none [] 1 0 :=
  c9_exact_literal_gate.2.2 5 hashFn0 xLit twoSpaceFrames none [] 0 0
    "X  BANNER".data "X  BANNER".data rfl (by decide) (by decide)

end BannerBot
